import Mathlib

/-!
Verification of the client-side encryption core of the Hicu chat application.

The development shallowly embeds the JavaScript crypto/key-management modules
(`src/crypto/chatKeyManager.js`, `src/crypto/textEncryption.js`,
`src/crypto/mediaCrypto.js`, `src/crypto/keyStorage.js`,
`src/crypto/publicKeyManager.js`, `src/services/chatMessagesService.js`)
as executable Lean functions and proves the specified properties about them.

Platform primitives (Web Crypto `crypto.subtle`, `btoa`/`atob`,
`TextEncoder`/`TextDecoder`, IndexedDB object stores) are not part of the
repository; they are modelled as ideal symbolic primitives with exactly the
interface contracts the repository code relies on:

* AES-256-GCM is an ideal AEAD: a sealed value records the payload together
  with an authentication tag binding the key, the IV and the payload, and
  decryption succeeds exactly when the presented key/IV reproduce the tag
  (otherwise it fails with `OperationError`, surfaced here as
  `authenticationError`).
* RSA-OAEP is an ideal public-key scheme: keypairs are identified by a
  keypair id; decryption succeeds exactly when the private key belongs to
  the keypair of the public key used for encryption (otherwise
  `keyMismatchError`).
* `btoa`/`atob` form an injective base64 coder with `atob ∘ btoa = id`,
  modelled as a wrapper around the byte list.
* `TextEncoder.encode`/`TextDecoder.decode` are modelled as the codepoint
  byte sequence of the string; the only property used is that decode is a
  left inverse of encode.
* IndexedDB object stores keyed by `keyPath` are association lists with
  JavaScript-object update semantics (`put` replaces the entry in place if
  the key exists, otherwise appends).
-/

/-- Raw byte strings exchanged with the Web Crypto API. -/
abbrev Bytes := List Nat

/-- A base64 string as produced by the platform `btoa`.  Modelled as an
opaque wrapper of the encoded bytes; the repository only ever round-trips
base64 values through `btoa`/`atob`. -/
structure B64 where
  bytes : Bytes
deriving DecidableEq, Repr

/-- Model of the platform `btoa` (bytes to base64 string). -/
def btoa (bs : Bytes) : B64 := ⟨bs⟩

/-- Model of the platform `atob` (base64 string back to bytes); composed with
`Uint8Array.from(..., c => c.charCodeAt(0))` as the repository always does. -/
def atob (s : B64) : Bytes := s.bytes

/-- Model of `new TextEncoder().encode(text)`: the sequence of codepoints of
the string. -/
def textEncode (s : String) : Bytes := s.data.map Char.toNat

/-- Model of `new TextDecoder().decode(bytes)`. -/
def textDecode (bs : Bytes) : String := String.mk (bs.map Char.ofNat)

/-- Model of the JavaScript `String.prototype.toLowerCase`, applied
characterwise to the string. -/
def toLowerCase (s : String) : String := String.mk (s.data.map Char.toLower)

/-- Error taxonomy of the crypto core (§7 of the design): Web Crypto
`OperationError` on AEAD tag failure is `authenticationError`, RSA-OAEP
decryption failure is `keyMismatchError`, and the explicit `throw new Error`
sites of the repository get their own constructors. -/
inductive CryptoError where
  | authenticationError
  | keyMismatchError
  | chatNotFound
  | privateKeyNotFound
  | publicKeyNotFound (email : String)
deriving DecidableEq, Repr

/-- The result of `crypto.subtle.encrypt({name:'AES-GCM', iv}, key, data)`:
an opaque sealed blob.  In the ideal-AEAD model it carries the payload and a
tag binding (key, iv, payload); real GCM makes the tag unforgeable, which the
model renders as the tag being exactly this triple. -/
structure GCMSealed where
  body : Bytes
  tag : Bytes × Bytes × Bytes
deriving DecidableEq, Repr

/-- Model of `crypto.subtle.encrypt` for AES-GCM. -/
def subtleEncryptGCM (key iv data : Bytes) : GCMSealed :=
  ⟨data, (key, iv, data)⟩

/-- Model of `crypto.subtle.decrypt` for AES-GCM: succeeds exactly when the
authentication tag matches the presented key, IV and ciphertext body. -/
def subtleDecryptGCM (key iv : Bytes) (ct : GCMSealed) : Except CryptoError Bytes :=
  if ct.tag = (key, iv, ct.body) then .ok ct.body else .error .authenticationError

/-- `crypto.subtle.importKey('raw', rawKey, 'AES-GCM', ...)` from
`src/crypto/mediaCrypto.js`: in the model a CryptoKey for AES-GCM is
identified with its raw bytes, so import is the identity. -/
def importKey (rawKey : Bytes) : Bytes := rawKey

/-- The `{ciphertext, iv}` envelope returned by `encryptText`
(`src/crypto/textEncryption.js`).  `ciphertext` is the base64 of the sealed
blob, kept opaque as the sealed blob itself. -/
structure EncryptedText where
  ciphertext : GCMSealed
  iv : B64
deriving DecidableEq, Repr

/-- `encryptText(text, key)` from `src/crypto/textEncryption.js`.  The random
12-byte IV drawn from `crypto.getRandomValues` is passed explicitly. -/
def encryptText (text : String) (key : Bytes) (iv : Bytes) : EncryptedText :=
  let data := textEncode text
  let encrypted := subtleEncryptGCM key iv data
  { ciphertext := encrypted, iv := btoa iv }

/-- `decryptText(ciphertext, ivBase64, key)` from
`src/crypto/textEncryption.js`. -/
def decryptText (ciphertext : GCMSealed) (ivBase64 : B64) (key : Bytes) :
    Except CryptoError String :=
  let iv := atob ivBase64
  (subtleDecryptGCM key iv ciphertext).map textDecode

/-- `encryptFile(file, key)` from `src/crypto/mediaCrypto.js`; the file is its
byte content (`file.arrayBuffer()`), the blob is the sealed payload, the IV is
passed explicitly.  Returns `{blob, iv}`. -/
def encryptFile (file : Bytes) (key : Bytes) (iv : Bytes) : GCMSealed × B64 :=
  (subtleEncryptGCM key iv file, btoa iv)

/-- `decryptFile(blob, key, ivBase64)` from `src/crypto/mediaCrypto.js`. -/
def decryptFile (blob : GCMSealed) (key : Bytes) (ivBase64 : B64) :
    Except CryptoError Bytes :=
  let iv := atob ivBase64
  subtleDecryptGCM key iv blob

/-- An RSA-OAEP public key (2048-bit, SHA-256) as generated by
`generateKeyPair` in `src/crypto/publicKeyManager.js`.  In the ideal model a
keypair is identified by a keypair id shared by its two halves. -/
structure RSAPublicKey where
  keyId : Nat
deriving DecidableEq, Repr

/-- The matching RSA-OAEP private key. -/
structure RSAPrivateKey where
  keyId : Nat
deriving DecidableEq, Repr

/-- `generateKeyPair()` from `src/crypto/publicKeyManager.js`: both halves of
a fresh keypair, the fresh keypair id passed explicitly. -/
def generateKeyPair (id : Nat) : RSAPublicKey × RSAPrivateKey :=
  (⟨id⟩, ⟨id⟩)

/-- The base64 string returned by `encryptWithPublicKey`: one RSA-OAEP block.
In the ideal model it records the keypair id of the public key and the
wrapped payload. -/
structure RSAWrapped where
  keyId : Nat
  data : Bytes
deriving DecidableEq, Repr

/-- `encryptWithPublicKey(data, publicKey)` from
`src/crypto/publicKeyManager.js`: RSA-OAEP encryption, base64-encoded. -/
def encryptWithPublicKey (data : Bytes) (publicKey : RSAPublicKey) : RSAWrapped :=
  ⟨publicKey.keyId, data⟩

/-- `decryptWithPrivateKey(encryptedBase64, privateKey)` from
`src/crypto/publicKeyManager.js`: RSA-OAEP decryption, succeeding exactly
when the private key belongs to the keypair whose public half produced the
block, failing with the key-mismatch error otherwise. -/
def decryptWithPrivateKey (encrypted : RSAWrapped) (privateKey : RSAPrivateKey) :
    Except CryptoError Bytes :=
  if encrypted.keyId = privateKey.keyId then .ok encrypted.data
  else .error .keyMismatchError

/-- Lookup in a string-keyed JavaScript object / IndexedDB store modelled as
an association list: the value of the (unique) entry with the given key. -/
def lookupKV {β : Type} : List (String × β) → String → Option β
  | [], _ => none
  | (a, b) :: t, k => if a = k then some b else lookupKV t k

/-- JavaScript-object / IndexedDB `put` update semantics: replace the entry
in place when the key exists, append otherwise. -/
def setKV {β : Type} : List (String × β) → String → β → List (String × β)
  | [], k, v => [(k, v)]
  | (a, b) :: t, k, v => if a = k then (k, v) :: t else (a, b) :: setKV t k v

/-- Deleting a key from a string-keyed store. -/
def removeKV {β : Type} (m : List (String × β)) (k : String) : List (String × β) :=
  m.filter (fun p => p.1 ≠ k)

theorem lookupKV_setKV_self {β : Type} (m : List (String × β)) (k : String) (v : β) :
    lookupKV (setKV m k v) k = some v := by
  induction m with
  | nil => simp [setKV, lookupKV]
  | cons hd t ih =>
    obtain ⟨a, b⟩ := hd
    by_cases hak : a = k
    · simp [setKV, hak, lookupKV]
    · simp [setKV, hak, lookupKV, ih]

theorem lookupKV_removeKV_self {β : Type} (m : List (String × β)) (k : String) :
    lookupKV (removeKV m k) k = none := by
  induction m with
  | nil => simp [removeKV, lookupKV]
  | cons hd t ih =>
    obtain ⟨a, b⟩ := hd
    by_cases hak : a = k
    · simpa [removeKV, hak] using ih
    · simpa [removeKV, hak, lookupKV] using ih

theorem setKV_of_not_mem {β : Type} (m : List (String × β)) (k : String) (v : β)
    (h : k ∉ m.map Prod.fst) : setKV m k v = m ++ [(k, v)] := by
  induction m with
  | nil => simp [setKV]
  | cons hd t ih =>
    obtain ⟨a, b⟩ := hd
    simp only [List.map_cons, List.mem_cons, not_or] at h
    simp [setKV, Ne.symm h.1, ih h.2]

theorem setKV_lookup_self {β : Type} (m : List (String × β)) (k : String) (v : β)
    (h : lookupKV m k = some v) : setKV m k v = m := by
  induction m with
  | nil => simp [lookupKV] at h
  | cons hd t ih =>
    obtain ⟨a, b⟩ := hd
    by_cases hak : a = k
    · subst hak
      simp only [lookupKV, eq_self_iff_true, if_true, Option.some.injEq] at h
      simp [setKV, h]
    · simp only [lookupKV, if_neg hak] at h
      simp [setKV, hak, ih h]

/-- The IndexedDB `chatKeys` object store of `src/crypto/keyStorage.js`,
keyed by `chatId`, holding the raw key bytes of each conversation.  The
`createdAt` bookkeeping field is dropped as no code reads it. -/
abbrev Vault := List (String × Bytes)

/-- `storeKey(chatId, keyBytes)` from `src/crypto/keyStorage.js`
(`store.put` keyed by `chatId`). -/
def storeKey (vault : Vault) (chatId : String) (keyBytes : Bytes) : Vault :=
  setKV vault chatId keyBytes

/-- `getKey(chatId)` from `src/crypto/keyStorage.js`. -/
def getKey (vault : Vault) (chatId : String) : Option Bytes :=
  lookupKV vault chatId

/-- `deleteKey(chatId)` from `src/crypto/keyStorage.js`. -/
def deleteKey (vault : Vault) (chatId : String) : Vault :=
  removeKV vault chatId

/-- `exportAllKeys()` from `src/crypto/keyStorage.js`: every stored record,
as a chatId → base64-key object, in store order. -/
def exportAllKeys (vault : Vault) : List (String × B64) :=
  vault.map (fun item => (item.1, btoa item.2))

/-- `importKeys(keysObject)` from `src/crypto/keyStorage.js`: `store.put` of
the decoded bytes for every entry of the backup object, in entry order. -/
def importKeys (keysObject : List (String × B64)) (vault : Vault) : Vault :=
  keysObject.foldl (fun v kv => storeKey v kv.1 (atob kv.2)) vault

/-- The fields of a `chats/{chatId}` Firestore document that
`getChatKey` reads (`src/crypto/chatKeyManager.js`).  Absent optional fields
are `none`; `e2eeEnabled` is the truthiness of the flag (false when absent). -/
structure ChatData where
  participants : List String
  keyPackages : Option (List (String × RSAWrapped))
  e2eeEnabled : Bool
  encryptionKey : Option B64
deriving DecidableEq, Repr

/-- `getUserPublicKey(userEmail)` from `src/crypto/publicKeyManager.js`:
look the user up in the `users` collection by lowercased email; throw when
the document or its `publicKey` field is missing.  The directory contents
are passed explicitly. -/
def getUserPublicKey (pubDir : List (String × RSAPublicKey)) (userEmail : String) :
    Except CryptoError RSAPublicKey :=
  match lookupKV pubDir (toLowerCase userEmail) with
  | some pk => .ok pk
  | none => .error (.publicKeyNotFound userEmail)

/-- `getMyPrivateKey()` from `src/crypto/publicKeyManager.js`: throw when no
private key is stored locally.  The locally stored key is passed
explicitly. -/
def getMyPrivateKey (stored : Option RSAPrivateKey) : Except CryptoError RSAPrivateKey :=
  match stored with
  | some sk => .ok sk
  | none => .error .privateKeyNotFound

/-- `generateChatKey()` from `src/crypto/chatKeyManager.js`: a fresh random
256-bit AES-GCM key exported as raw bytes; the randomness is passed
explicitly. -/
def generateChatKey (fresh : Bytes) : Bytes := fresh

/-- The observable outcome of one resolution by `getChatKey`
(`src/crypto/chatKeyManager.js`): the key handed back to the caller
(`importKey rawKey`), the final local vault, the `keyPackages` object written
by `updateDoc` in `shareKeyWithParticipants` (if any), and whether the
`e2eeEnabled: true` flag was written to the chat document. -/
structure ResolveResult where
  key : Bytes
  vault : Vault
  publishedPackages : Option (List (String × RSAWrapped))
  e2eeFlagSet : Bool
deriving DecidableEq, Repr

/-- `shareKeyWithParticipants(chatId, rawKey, participants)` from
`src/crypto/chatKeyManager.js`: for each participant, fetch their public key
and wrap the chat key for them under their lowercased email; a participant
whose key package cannot be created is logged and skipped.  Returns the
`keyPackages` object stored by the final `updateDoc`. -/
def shareKeyWithParticipants (pubDir : List (String × RSAPublicKey))
    (rawKey : Bytes) (participants : List String) : List (String × RSAWrapped) :=
  participants.foldl
    (fun keyPackages email =>
      match getUserPublicKey pubDir email with
      | .ok publicKey => setKV keyPackages (toLowerCase email) (encryptWithPublicKey rawKey publicKey)
      | .error _ => keyPackages)
    []

/-- The try/catch around Priority 1 of `getChatKey`
(`src/crypto/chatKeyManager.js` lines 64-82): fetch my private key and
decrypt the key package addressed to me; any failure is caught and yields
`none` so that resolution falls through to the later priorities. -/
def tryDecryptKeyPackage (myPrivateKey : Option RSAPrivateKey)
    (encryptedPackage : RSAWrapped) : Option Bytes :=
  match getMyPrivateKey myPrivateKey with
  | .ok sk =>
    match decryptWithPrivateKey encryptedPackage sk with
    | .ok rawKey => some rawKey
    | .error _ => none
  | .error _ => none

/-- Priority 4 of `getChatKey` (`src/crypto/chatKeyManager.js` lines
123-143): no key exists anywhere, so generate a new one, persist it locally,
publish one wrapped package per reachable participant, and mark the chat
`e2eeEnabled`. -/
def getChatKeyPriority4 (pubDir : List (String × RSAPublicKey)) (chatData : ChatData)
    (vault : Vault) (chatId : String) (fresh : Bytes) : ResolveResult :=
  let rawKey := generateChatKey fresh
  let vaultAfter := storeKey vault chatId rawKey
  let keyPackages := shareKeyWithParticipants pubDir rawKey chatData.participants
  { key := importKey rawKey, vault := vaultAfter,
    publishedPackages := some keyPackages, e2eeFlagSet := true }

/-- Priority 3 of `getChatKey` (`src/crypto/chatKeyManager.js` lines
110-121): migrate a legacy plaintext Firestore key into the vault, else go to
Priority 4. -/
def getChatKeyPriority3 (pubDir : List (String × RSAPublicKey)) (chatData : ChatData)
    (vault : Vault) (chatId : String) (fresh : Bytes) : ResolveResult :=
  match chatData.encryptionKey with
  | some legacyKey =>
    let rawKey := atob legacyKey
    { key := importKey rawKey, vault := storeKey vault chatId rawKey,
      publishedPackages := none, e2eeFlagSet := false }
  | none => getChatKeyPriority4 pubDir chatData vault chatId fresh

/-- Priority 2 of `getChatKey` (`src/crypto/chatKeyManager.js` lines
85-108): use the locally stored key, unless the chat document carries key
packages, none is addressed to me and the chat lacks the `e2eeEnabled` flag,
in which case the local entry is deleted as orphaned and resolution falls
through to Priority 3. -/
def getChatKeyPriority2 (pubDir : List (String × RSAPublicKey)) (chatData : ChatData)
    (myEmail : Option String) (vault : Vault) (chatId : String) (fresh : Bytes) :
    ResolveResult :=
  match getKey vault chatId with
  | some rawKey =>
    let purge : Bool :=
      match chatData.keyPackages, myEmail with
      | some pkgs, some e => (lookupKV pkgs (toLowerCase e)).isNone && !chatData.e2eeEnabled
      | _, _ => false
    if purge then
      getChatKeyPriority3 pubDir chatData (deleteKey vault chatId) chatId fresh
    else
      { key := importKey rawKey, vault := vault,
        publishedPackages := none, e2eeFlagSet := false }
  | none => getChatKeyPriority3 pubDir chatData vault chatId fresh

/-- The promise body of `getChatKey(chatId, myEmail)`
(`src/crypto/chatKeyManager.js` lines 48-150): read the chat document
(throwing when absent), then try the four priorities in order.  The Firestore
document, the private-key store, the public-key directory and the random draw
are passed explicitly. -/
def getChatKeyBody (pubDir : List (String × RSAPublicKey))
    (myPrivateKey : Option RSAPrivateKey) (chatSnap : Option ChatData)
    (myEmail : Option String) (vault : Vault) (chatId : String) (fresh : Bytes) :
    Except CryptoError ResolveResult :=
  match chatSnap with
  | none => .error .chatNotFound
  | some chatData =>
    let fromPackage : Option Bytes :=
      match myEmail, chatData.keyPackages with
      | some e, some pkgs =>
        match lookupKV pkgs (toLowerCase e) with
        | some encryptedPackage => tryDecryptKeyPackage myPrivateKey encryptedPackage
        | none => none
      | _, _ => none
    match fromPackage with
    | some rawKey =>
      .ok { key := importKey rawKey, vault := storeKey vault chatId rawKey,
            publishedPackages := none, e2eeFlagSet := false }
    | none => .ok (getChatKeyPriority2 pubDir chatData myEmail vault chatId fresh)

/-- The module-level `keyCachePromises` map of `src/crypto/chatKeyManager.js`.
A pending promise is identified with the resolution it eventually settles
to. -/
abbrev KeyCachePromises := List (String × Except CryptoError ResolveResult)

/-- The cache-coalescing entry of `getChatKey` (`src/crypto/chatKeyManager.js`
lines 40-48 and 152-155): a call that finds a pending promise for the chat
returns it unchanged; otherwise it starts its own resolution (`keyPromise`,
passed as the value the body settles to) and stores it in the map before
returning it. -/
def getChatKeyCached (keyCachePromises : KeyCachePromises) (chatId : String)
    (keyPromise : Except CryptoError ResolveResult) :
    Except CryptoError ResolveResult × KeyCachePromises :=
  match lookupKV keyCachePromises chatId with
  | some pending => (pending, keyCachePromises)
  | none => (keyPromise, setKV keyCachePromises chatId keyPromise)

/-- The deferred cleanup scheduled in the `finally` block of `getChatKey`
(`src/crypto/chatKeyManager.js` lines 144-149): one second after the
resolution settles, the map entry is deleted. -/
def keyCacheCleanup (keyCachePromises : KeyCachePromises) (chatId : String) :
    KeyCachePromises :=
  removeKV keyCachePromises chatId

/-- The fields of a message document read by the snapshot handler of
`subscribeToChatMessages` (`src/services/chatMessagesService.js`).
`encryptedText`/`textIv` are `none` when absent (or falsy); `text` and `uid`
stand for the stored plaintext and routing fields that the handler spreads
through unchanged. -/
structure MessageDoc where
  id : String
  encryptedText : Option GCMSealed
  textIv : Option B64
  text : String
  uid : String
deriving DecidableEq, Repr

/-- One element of the decrypted-messages array produced by the snapshot
handler.  `encrypted` is `none` when the handler leaves the flag unset (the
decryption-failure branch sets no `encrypted` field). -/
structure ProcessedMessage where
  id : String
  text : String
  uid : String
  encrypted : Option Bool
  decryptionError : Bool
deriving DecidableEq, Repr

/-- The per-document mapping inside the snapshot handler of
`subscribeToChatMessages` (`src/services/chatMessagesService.js` lines
40-70): decrypt when both `encryptedText` and `textIv` are present, replace a
failed decryption by the placeholder with the error flag, and pass legacy
unencrypted messages through flagged `encrypted: false`. -/
def processMessageDoc (chatKey : Bytes) (m : MessageDoc) : ProcessedMessage :=
  match m.encryptedText, m.textIv with
  | some ciphertext, some iv =>
    match decryptText ciphertext iv chatKey with
    | .ok decryptedText =>
      { id := m.id, text := decryptedText, uid := m.uid,
        encrypted := some true, decryptionError := false }
    | .error _ =>
      { id := m.id, text := "[Decryption failed]", uid := m.uid,
        encrypted := none, decryptionError := true }
  | _, _ =>
    { id := m.id, text := m.text, uid := m.uid,
      encrypted := some false, decryptionError := false }

/-- The whole-snapshot mapping of `subscribeToChatMessages`: every document
of the snapshot is processed independently. -/
def processSnapshot (chatKey : Bytes) (docs : List MessageDoc) : List ProcessedMessage :=
  docs.map (processMessageDoc chatKey)

theorem atob_btoa (bs : Bytes) : atob (btoa bs) = bs := rfl

theorem textDecode_textEncode (s : String) : textDecode (textEncode s) = s := by
  simp [textDecode, textEncode, List.map_map, Function.comp_def, Char.ofNat_toNat]

/-- C1: decrypting the output of `encryptText` with the same key and the
returned base64 IV yields the original plaintext, and `decryptFile` applied to
the blob and IV returned by `encryptFile` with the same key yields the
original file bytes. -/
theorem encrypt_decrypt_roundtrip (P : String) (F K iv : Bytes) :
    decryptText (encryptText P K iv).ciphertext (encryptText P K iv).iv K = .ok P ∧
    decryptFile (encryptFile F K iv).1 K (encryptFile F K iv).2 = .ok F := by
  constructor
  · simp [decryptText, encryptText, subtleEncryptGCM, subtleDecryptGCM, atob_btoa,
      Except.map, textDecode_textEncode]
  · simp [decryptFile, encryptFile, subtleEncryptGCM, subtleDecryptGCM, atob_btoa]

/-- C2: unwrapping a symmetric key wrapped for a keypair's public half with
the same keypair's private half returns exactly the wrapped bytes, and
unwrapping with a private key of a different keypair fails with the
key-mismatch error instead of returning data. -/
theorem wrap_unwrap_roundtrip (S : Bytes) (i : Nat) (priv2 : RSAPrivateKey)
    (h : priv2.keyId ≠ i) :
    decryptWithPrivateKey (encryptWithPublicKey S (generateKeyPair i).1)
      (generateKeyPair i).2 = .ok S ∧
    decryptWithPrivateKey (encryptWithPublicKey S (generateKeyPair i).1)
      priv2 = .error .keyMismatchError := by
  constructor
  · simp [decryptWithPrivateKey, encryptWithPublicKey, generateKeyPair]
  · simp [decryptWithPrivateKey, encryptWithPublicKey, generateKeyPair, h,
      fun a => (h.symm : i ≠ priv2.keyId) a]

theorem wrap_unwrap_roundtrip_witness :
    (RSAPrivateKey.mk 3).keyId ≠ 7 ∧
    (decryptWithPrivateKey (encryptWithPublicKey [1, 2] (generateKeyPair 7).1)
       (generateKeyPair 7).2 = .ok [1, 2] ∧
     decryptWithPrivateKey (encryptWithPublicKey [1, 2] (generateKeyPair 7).1)
       (RSAPrivateKey.mk 3) = .error .keyMismatchError) :=
  ⟨by decide, wrap_unwrap_roundtrip [1, 2] 7 (RSAPrivateKey.mk 3) (by decide)⟩

/-- C7: decrypting a ciphertext produced under one AES-GCM key with a
different key, with a mismatched IV, or after its body was tampered with,
fails with the authentication error rather than returning plaintext; the same
holds for encrypted files. -/
theorem decrypt_mismatch_fails (P : String) (F K1 K2 iv iv2 b : Bytes) :
    (K2 ≠ K1 →
      decryptText (encryptText P K1 iv).ciphertext (encryptText P K1 iv).iv K2 =
        .error .authenticationError) ∧
    (iv2 ≠ iv →
      decryptText (encryptText P K1 iv).ciphertext (btoa iv2) K1 =
        .error .authenticationError) ∧
    (b ≠ textEncode P →
      decryptText ⟨b, (encryptText P K1 iv).ciphertext.tag⟩ (encryptText P K1 iv).iv K1 =
        .error .authenticationError) ∧
    (K2 ≠ K1 →
      decryptFile (encryptFile F K1 iv).1 K2 (encryptFile F K1 iv).2 =
        .error .authenticationError) := by
  refine ⟨fun h => ?_, fun h => ?_, fun h => ?_, fun h => ?_⟩
  · simp [decryptText, encryptText, subtleEncryptGCM, subtleDecryptGCM, atob_btoa,
      Except.map, fun a => (h.symm : K1 ≠ K2) a]
  · simp [decryptText, encryptText, subtleEncryptGCM, subtleDecryptGCM, atob_btoa,
      Except.map, fun a => (h.symm : iv ≠ iv2) a]
  · simp [decryptText, encryptText, subtleEncryptGCM, subtleDecryptGCM, atob_btoa,
      Except.map, fun a => (h.symm : textEncode P ≠ b) a]
  · simp [decryptFile, encryptFile, subtleEncryptGCM, subtleDecryptGCM, atob_btoa,
      fun a => (h.symm : K1 ≠ K2) a]

theorem decrypt_mismatch_fails_witness :
    ([2] : Bytes) ≠ [1] ∧ ([4] : Bytes) ≠ [3] ∧ ([9] : Bytes) ≠ textEncode "hi" ∧
    (decryptText (encryptText "hi" [1] [3]).ciphertext (encryptText "hi" [1] [3]).iv [2] =
       .error .authenticationError ∧
     decryptText (encryptText "hi" [1] [3]).ciphertext (btoa [4]) [1] =
       .error .authenticationError ∧
     decryptText ⟨[9], (encryptText "hi" [1] [3]).ciphertext.tag⟩ (encryptText "hi" [1] [3]).iv [1] =
       .error .authenticationError ∧
     decryptFile (encryptFile [5] [1] [3]).1 [2] (encryptFile [5] [1] [3]).2 =
       .error .authenticationError) :=
  ⟨by decide, by decide, by decide,
   (decrypt_mismatch_fails "hi" [5] [1] [2] [3] [4] [9]).1 (by decide),
   (decrypt_mismatch_fails "hi" [5] [1] [2] [3] [4] [9]).2.1 (by decide),
   (decrypt_mismatch_fails "hi" [5] [1] [2] [3] [4] [9]).2.2.1 (by decide),
   (decrypt_mismatch_fails "hi" [5] [1] [2] [3] [4] [9]).2.2.2 (by decide)⟩

theorem lookupKV_of_mem_nodup {β : Type} (m : List (String × β)) (k : String) (v : β)
    (hnd : (m.map Prod.fst).Nodup) (hm : (k, v) ∈ m) : lookupKV m k = some v := by
  induction m with
  | nil => simp at hm
  | cons hd t ih =>
    obtain ⟨a, b⟩ := hd
    simp only [List.map_cons, List.nodup_cons] at hnd
    rcases List.mem_cons.mp hm with h1 | h2
    · obtain ⟨rfl, rfl⟩ := Prod.mk.injEq .. ▸ h1
      simp [lookupKV]
    · have hak : a ≠ k := by
        intro e
        subst e
        exact hnd.1 (List.mem_map.mpr ⟨(a, v), h2, rfl⟩)
      simp [lookupKV, hak, ih hnd.2 h2]

theorem importKeys_fresh (obj : List (String × B64)) (acc : Vault)
    (hnd : (obj.map Prod.fst).Nodup)
    (hdisj : ∀ k ∈ obj.map Prod.fst, k ∉ acc.map Prod.fst) :
    importKeys obj acc = acc ++ obj.map (fun p => (p.1, atob p.2)) := by
  induction obj generalizing acc with
  | nil => simp [importKeys]
  | cons hd t ih =>
    obtain ⟨k, b⟩ := hd
    simp only [List.map_cons, List.nodup_cons] at hnd
    have hk : k ∉ acc.map Prod.fst := hdisj k (by simp)
    have hstep : importKeys ((k, b) :: t) acc = importKeys t (storeKey acc k (atob b)) := rfl
    rw [hstep, storeKey, setKV_of_not_mem _ _ _ hk]
    have hdisj2 : ∀ k' ∈ t.map Prod.fst, k' ∉ (acc ++ [(k, atob b)]).map Prod.fst := by
      intro k' hk'
      simp only [List.map_append, List.mem_append, List.map_cons, List.map_nil,
        List.mem_singleton, not_or]
      exact ⟨fun hc => hdisj k' (by simp [hk']) hc, fun hc => hnd.1 (hc ▸ hk')⟩
    rw [ih (acc ++ [(k, atob b)]) hnd.2 hdisj2, List.append_assoc]
    simp

theorem importKeys_id_of_lookup (obj : List (String × B64)) (w : Vault)
    (h : ∀ p ∈ obj, lookupKV w p.1 = some (atob p.2)) :
    importKeys obj w = w := by
  induction obj with
  | nil => rfl
  | cons hd t ih =>
    have hstep : importKeys (hd :: t) w = importKeys t (storeKey w hd.1 (atob hd.2)) := rfl
    rw [hstep, storeKey, setKV_lookup_self _ _ _ (h hd (by simp))]
    exact ih (fun p hp => h p (List.mem_cons_of_mem _ hp))

/-- C9: importing the map produced by `exportAllKeys` into a fresh empty
vault reproduces exactly the original (conversationId, raw-key-bytes)
entries, and re-importing the same map into the original vault is the
identity (each key is overwritten with an identical value). -/
theorem export_import_roundtrip (vault : Vault)
    (hnd : (vault.map Prod.fst).Nodup) :
    importKeys (exportAllKeys vault) [] = vault ∧
    importKeys (exportAllKeys vault) vault = vault := by
  have hkeys : (exportAllKeys vault).map Prod.fst = vault.map Prod.fst := by
    simp [exportAllKeys]
  constructor
  · rw [importKeys_fresh _ _ (hkeys ▸ hnd) (by simp)]
    simp [exportAllKeys, atob_btoa, List.map_map, Function.comp_def]
  · refine importKeys_id_of_lookup _ _ (fun p hp => ?_)
    simp only [exportAllKeys, List.mem_map] at hp
    obtain ⟨⟨k, v⟩, hkv, rfl⟩ := hp
    simpa [atob_btoa] using lookupKV_of_mem_nodup vault k v hnd hkv

theorem export_import_roundtrip_witness :
    (([("c1", [1, 2]), ("c2", [3])] : Vault).map Prod.fst).Nodup ∧
    (importKeys (exportAllKeys [("c1", [1, 2]), ("c2", [3])]) [] =
       [("c1", [1, 2]), ("c2", [3])] ∧
     importKeys (exportAllKeys [("c1", [1, 2]), ("c2", [3])])
       [("c1", [1, 2]), ("c2", [3])] = [("c1", [1, 2]), ("c2", [3])]) :=
  ⟨by decide, export_import_roundtrip [("c1", [1, 2]), ("c2", [3])] (by decide)⟩

theorem shareKeyWithParticipants_fold_keys (pubDir : List (String × RSAPublicKey))
    (rawKey : Bytes) (parts : List String) :
    ∀ (acc : List (String × RSAWrapped)),
      (∀ p ∈ parts, (lookupKV pubDir (toLowerCase p)).isSome = true) →
      (∀ p ∈ parts, toLowerCase p ∉ acc.map Prod.fst) →
      (parts.map toLowerCase).Nodup →
      (parts.foldl
        (fun keyPackages email =>
          match getUserPublicKey pubDir email with
          | .ok publicKey =>
            setKV keyPackages (toLowerCase email) (encryptWithPublicKey rawKey publicKey)
          | .error _ => keyPackages) acc).map Prod.fst
        = acc.map Prod.fst ++ parts.map toLowerCase := by
  induction parts with
  | nil => intro acc _ _ _; simp
  | cons p t ih =>
    intro acc hpub hdisj hnd
    simp only [List.map_cons, List.nodup_cons] at hnd
    obtain ⟨pk, hpk⟩ := Option.isSome_iff_exists.mp (hpub p (by simp))
    have hstep : (match getUserPublicKey pubDir p with
        | .ok publicKey => setKV acc (toLowerCase p) (encryptWithPublicKey rawKey publicKey)
        | .error _ => acc) = acc ++ [(toLowerCase p, encryptWithPublicKey rawKey pk)] := by
      simp [getUserPublicKey, hpk, setKV_of_not_mem _ _ _ (hdisj p (by simp))]
    have hdisj2 : ∀ q ∈ t, toLowerCase q ∉
        (acc ++ [(toLowerCase p, encryptWithPublicKey rawKey pk)]).map Prod.fst := by
      intro q hq
      simp only [List.map_append, List.mem_append, List.map_cons, List.map_nil,
        List.mem_singleton, not_or]
      exact ⟨hdisj q (by simp [hq]),
        fun hc => hnd.1 (hc ▸ List.mem_map.mpr ⟨q, hq, rfl⟩)⟩
    rw [List.foldl_cons, hstep,
      ih (acc ++ [(toLowerCase p, encryptWithPublicKey rawKey pk)])
        (fun q hq => hpub q (by simp [hq])) hdisj2 hnd.2]
    simp

theorem shareKeyWithParticipants_keys (pubDir : List (String × RSAPublicKey))
    (rawKey : Bytes) (parts : List String)
    (hpub : ∀ p ∈ parts, (lookupKV pubDir (toLowerCase p)).isSome = true)
    (hnd : (parts.map toLowerCase).Nodup) :
    (shareKeyWithParticipants pubDir rawKey parts).map Prod.fst =
      parts.map toLowerCase := by
  simpa [shareKeyWithParticipants] using
    shareKeyWithParticipants_fold_keys pubDir rawKey parts [] hpub (by simp) hnd

/-- C3: on a conversation document with no key metadata, `getChatKey`
generates a fresh 256-bit key, persists it to the local vault, sets the
`e2eeEnabled` marker, publishes exactly one wrapped key package per
participant (one package under each distinct lowercased participant email),
and returns the new key. -/
theorem first_resolution_generates_key (pubDir : List (String × RSAPublicKey))
    (myPrivateKey : Option RSAPrivateKey) (participants : List String)
    (myEmail : Option String) (vault : Vault) (chatId : String) (fresh : Bytes)
    (hvault : getKey vault chatId = none)
    (hlen : fresh.length = 32)
    (hpub : ∀ p ∈ participants, (lookupKV pubDir (toLowerCase p)).isSome = true)
    (hnd : (participants.map toLowerCase).Nodup) :
    getChatKeyBody pubDir myPrivateKey
        (some { participants := participants, keyPackages := none,
                e2eeEnabled := false, encryptionKey := none })
        myEmail vault chatId fresh =
      .ok { key := importKey fresh, vault := storeKey vault chatId fresh,
            publishedPackages :=
              some (shareKeyWithParticipants pubDir fresh participants),
            e2eeFlagSet := true } ∧
    (shareKeyWithParticipants pubDir fresh participants).map Prod.fst =
      participants.map toLowerCase ∧
    getKey (storeKey vault chatId fresh) chatId = some fresh ∧
    (importKey fresh).length = 32 := by
  refine ⟨?_, shareKeyWithParticipants_keys pubDir fresh participants hpub hnd,
    ?_, hlen⟩
  · cases myEmail <;>
      simp [getChatKeyBody, getChatKeyPriority2, getChatKeyPriority3,
        getChatKeyPriority4, generateChatKey, importKey, hvault]
  · simp [getKey, storeKey, lookupKV_setKV_self]

theorem first_resolution_generates_key_witness :
    getKey [] "c1" = none ∧ (List.replicate 32 7).length = 32 ∧
    (∀ p ∈ ["Alice@x", "bob@y"], (lookupKV [("alice@x", RSAPublicKey.mk 1),
       ("bob@y", RSAPublicKey.mk 2)] (toLowerCase p)).isSome = true) ∧
    ((["Alice@x", "bob@y"].map toLowerCase).Nodup) ∧
    (getChatKeyBody [("alice@x", RSAPublicKey.mk 1), ("bob@y", RSAPublicKey.mk 2)]
        none
        (some { participants := ["Alice@x", "bob@y"], keyPackages := none,
                e2eeEnabled := false, encryptionKey := none })
        (some "Alice@x") [] "c1" (List.replicate 32 7) =
      .ok { key := importKey (List.replicate 32 7),
            vault := storeKey [] "c1" (List.replicate 32 7),
            publishedPackages :=
              some (shareKeyWithParticipants
                [("alice@x", RSAPublicKey.mk 1), ("bob@y", RSAPublicKey.mk 2)]
                (List.replicate 32 7) ["Alice@x", "bob@y"]),
            e2eeFlagSet := true } ∧
     (shareKeyWithParticipants
        [("alice@x", RSAPublicKey.mk 1), ("bob@y", RSAPublicKey.mk 2)]
        (List.replicate 32 7) ["Alice@x", "bob@y"]).map Prod.fst =
       ["Alice@x", "bob@y"].map toLowerCase ∧
     getKey (storeKey [] "c1" (List.replicate 32 7)) "c1" =
       some (List.replicate 32 7) ∧
     (importKey (List.replicate 32 7)).length = 32) :=
  ⟨by decide, by decide, by decide, by decide,
   first_resolution_generates_key
     [("alice@x", RSAPublicKey.mk 1), ("bob@y", RSAPublicKey.mk 2)] none
     ["Alice@x", "bob@y"] (some "Alice@x") [] "c1" (List.replicate 32 7)
     (by decide) (by decide) (by decide) (by decide)⟩

/-- C4: two concurrent `getChatKey` calls for the same not-yet-cached
conversation share one in-flight resolution: the first stores its promise in
`keyCachePromises`, the second finds and returns that stored promise instead
of starting a new resolution, so both settle to the identical value; the
deferred cleanup then removes the map entry. -/
theorem concurrent_resolution_coalesces (cache : KeyCachePromises) (chatId : String)
    (keyPromise1 keyPromise2 : Except CryptoError ResolveResult)
    (hfirst : lookupKV cache chatId = none) :
    getChatKeyCached cache chatId keyPromise1 =
      (keyPromise1, setKV cache chatId keyPromise1) ∧
    getChatKeyCached (setKV cache chatId keyPromise1) chatId keyPromise2 =
      (keyPromise1, setKV cache chatId keyPromise1) ∧
    lookupKV (keyCacheCleanup (setKV cache chatId keyPromise1) chatId) chatId = none := by
  refine ⟨by simp [getChatKeyCached, hfirst], ?_, ?_⟩
  · simp [getChatKeyCached, lookupKV_setKV_self]
  · simp [keyCacheCleanup, lookupKV_removeKV_self]

theorem concurrent_resolution_coalesces_witness :
    lookupKV ([] : KeyCachePromises) "c1" = none ∧
    (getChatKeyCached [] "c1"
        (Except.error CryptoError.chatNotFound) =
      (Except.error CryptoError.chatNotFound,
       setKV [] "c1" (Except.error CryptoError.chatNotFound)) ∧
     getChatKeyCached (setKV [] "c1" (Except.error CryptoError.chatNotFound)) "c1"
        (Except.error CryptoError.privateKeyNotFound) =
      (Except.error CryptoError.chatNotFound,
       setKV [] "c1" (Except.error CryptoError.chatNotFound)) ∧
     lookupKV (keyCacheCleanup
        (setKV [] "c1" (Except.error CryptoError.chatNotFound)) "c1") "c1" = none) :=
  ⟨rfl,
   concurrent_resolution_coalesces [] "c1" (Except.error CryptoError.chatNotFound)
     (Except.error CryptoError.privateKeyNotFound) rfl⟩

/-- C5: when the chat document holds a key package addressed to the caller
but unwrapping it fails, `getChatKey` does not fail the call: it proceeds
exactly as the Priority-2-onward cascade (local vault, legacy key, fresh
generation) and still resolves successfully. -/
theorem unwrap_failure_falls_through (pubDir : List (String × RSAPublicKey))
    (myPrivateKey : Option RSAPrivateKey) (chatData : ChatData) (e : String)
    (w : RSAWrapped) (vault : Vault) (chatId : String) (fresh : Bytes)
    (pkgs : List (String × RSAWrapped))
    (hpkgs : chatData.keyPackages = some pkgs)
    (hlookup : lookupKV pkgs (toLowerCase e) = some w)
    (hfail : tryDecryptKeyPackage myPrivateKey w = none) :
    getChatKeyBody pubDir myPrivateKey (some chatData) (some e) vault chatId fresh =
      .ok (getChatKeyPriority2 pubDir chatData (some e) vault chatId fresh) := by
  simp [getChatKeyBody, hpkgs, hlookup, hfail]

theorem unwrap_failure_falls_through_witness :
    (ChatData.mk ["a"] (some [("a", RSAWrapped.mk 2 [9])]) true none).keyPackages =
      some [("a", RSAWrapped.mk 2 [9])] ∧
    lookupKV [("a", RSAWrapped.mk 2 [9])] (toLowerCase "A") = some (RSAWrapped.mk 2 [9]) ∧
    tryDecryptKeyPackage (some (RSAPrivateKey.mk 1)) (RSAWrapped.mk 2 [9]) = none ∧
    getChatKeyBody [] (some (RSAPrivateKey.mk 1))
        (some (ChatData.mk ["a"] (some [("a", RSAWrapped.mk 2 [9])]) true none))
        (some "A") [("c1", [7])] "c1" [3] =
      .ok (getChatKeyPriority2 []
        (ChatData.mk ["a"] (some [("a", RSAWrapped.mk 2 [9])]) true none)
        (some "A") [("c1", [7])] "c1" [3]) :=
  ⟨by decide, by decide, by decide,
   unwrap_failure_falls_through [] (some (RSAPrivateKey.mk 1))
     (ChatData.mk ["a"] (some [("a", RSAWrapped.mk 2 [9])]) true none)
     "A" (RSAWrapped.mk 2 [9]) [("c1", [7])] "c1" [3]
     [("a", RSAWrapped.mk 2 [9])] (by decide) (by decide) (by decide)⟩

/-- C6: with a vault key present and a caller email supplied, Priority 2 of
`getChatKey` purges the vault entry and falls through exactly when the chat
document carries a `keyPackages` map with no entry for the caller's
lowercased email and lacks the `e2eeEnabled` marker; in every other case it
returns the vault key directly and leaves the vault unchanged. -/
theorem vault_key_validation (pubDir : List (String × RSAPublicKey))
    (chatData : ChatData) (e : String) (vault : Vault) (chatId : String)
    (fresh : Bytes) (k : Bytes)
    (hvault : getKey vault chatId = some k) :
    ((∃ pkgs, chatData.keyPackages = some pkgs ∧ lookupKV pkgs (toLowerCase e) = none) ∧
        chatData.e2eeEnabled = false →
      getChatKeyPriority2 pubDir chatData (some e) vault chatId fresh =
        getChatKeyPriority3 pubDir chatData (deleteKey vault chatId) chatId fresh ∧
      getKey (deleteKey vault chatId) chatId = none) ∧
    (¬ ((∃ pkgs, chatData.keyPackages = some pkgs ∧ lookupKV pkgs (toLowerCase e) = none) ∧
        chatData.e2eeEnabled = false) →
      getChatKeyPriority2 pubDir chatData (some e) vault chatId fresh =
        { key := importKey k, vault := vault, publishedPackages := none,
          e2eeFlagSet := false }) := by
  constructor
  · rintro ⟨⟨pkgs, hpkgs, hlk⟩, he⟩
    refine ⟨?_, by simp [getKey, deleteKey, lookupKV_removeKV_self]⟩
    simp [getChatKeyPriority2, hvault, hpkgs, hlk, he]
  · intro hno
    rcases hkp : chatData.keyPackages with _ | pkgs
    · simp [getChatKeyPriority2, hvault, hkp]
    · rcases hlk : lookupKV pkgs (toLowerCase e) with _ | w
      · have he : chatData.e2eeEnabled = true := by
          by_contra hfalse
          exact hno ⟨⟨pkgs, hkp, hlk⟩, by simpa using hfalse⟩
        simp [getChatKeyPriority2, hvault, hkp, hlk, he]
      · simp [getChatKeyPriority2, hvault, hkp, hlk]

theorem vault_key_validation_witness :
    getKey [("c1", [7])] "c1" = some ([7] : Bytes) ∧
    getChatKeyPriority2 [] (ChatData.mk ["a"] (some []) false (some (btoa [9])))
        (some "A") [("c1", [7])] "c1" [3] =
      getChatKeyPriority3 [] (ChatData.mk ["a"] (some []) false (some (btoa [9])))
        (deleteKey [("c1", [7])] "c1") "c1" [3] :=
  ⟨by decide,
   ((vault_key_validation [] (ChatData.mk ["a"] (some []) false (some (btoa [9])))
       "A" [("c1", [7])] "c1" [3] [7] (by decide)).1
     ⟨⟨[], by decide, by decide⟩, by decide⟩).1⟩

/-- C8: a message whose decryption fails is delivered as a placeholder with
the text `[Decryption failed]` and the `decryptionError` flag instead of an
exception, and the snapshot handler still delivers one processed message per
document of the snapshot. -/
theorem decryption_failure_placeholder (chatKey : Bytes) (m : MessageDoc)
    (ct : GCMSealed) (iv : B64) (err : CryptoError)
    (hct : m.encryptedText = some ct) (hiv : m.textIv = some iv)
    (hfail : decryptText ct iv chatKey = .error err) :
    processMessageDoc chatKey m =
      { id := m.id, text := "[Decryption failed]", uid := m.uid,
        encrypted := none, decryptionError := true } ∧
    ∀ docs : List MessageDoc, (processSnapshot chatKey docs).length = docs.length := by
  refine ⟨?_, fun docs => by simp [processSnapshot]⟩
  simp [processMessageDoc, hct, hiv, hfail]

theorem decryption_failure_placeholder_witness :
    (MessageDoc.mk "m1" (some (subtleEncryptGCM [1] [3] [5])) (some (btoa [3])) "" "u").encryptedText =
      some (subtleEncryptGCM [1] [3] [5]) ∧
    (MessageDoc.mk "m1" (some (subtleEncryptGCM [1] [3] [5])) (some (btoa [3])) "" "u").textIv =
      some (btoa [3]) ∧
    decryptText (subtleEncryptGCM [1] [3] [5]) (btoa [3]) [2] =
      .error CryptoError.authenticationError ∧
    processMessageDoc [2]
        (MessageDoc.mk "m1" (some (subtleEncryptGCM [1] [3] [5])) (some (btoa [3])) "" "u") =
      { id := "m1", text := "[Decryption failed]", uid := "u",
        encrypted := none, decryptionError := true } :=
  ⟨rfl, rfl, rfl,
   (decryption_failure_placeholder [2]
     (MessageDoc.mk "m1" (some (subtleEncryptGCM [1] [3] [5])) (some (btoa [3])) "" "u")
     (subtleEncryptGCM [1] [3] [5]) (btoa [3]) CryptoError.authenticationError
     rfl rfl rfl).1⟩

/-- C10: a message document lacking `encryptedText` or `textIv` is delivered
with its stored fields intact, flagged `encrypted: false`, with no decryption
attempted and no error raised. -/
theorem legacy_message_passthrough (chatKey : Bytes) (m : MessageDoc)
    (h : m.encryptedText = none ∨ m.textIv = none) :
    processMessageDoc chatKey m =
      { id := m.id, text := m.text, uid := m.uid,
        encrypted := some false, decryptionError := false } := by
  rcases hct : m.encryptedText with _ | ct <;> rcases hiv : m.textIv with _ | iv
  · simp [processMessageDoc, hct, hiv]
  · simp [processMessageDoc, hct, hiv]
  · simp [processMessageDoc, hct, hiv]
  · simp [hct, hiv] at h

theorem legacy_message_passthrough_witness :
    ((MessageDoc.mk "m1" none none "hello" "u").encryptedText = none ∨
     (MessageDoc.mk "m1" none none "hello" "u").textIv = none) ∧
    processMessageDoc [1] (MessageDoc.mk "m1" none none "hello" "u") =
      { id := "m1", text := "hello", uid := "u",
        encrypted := some false, decryptionError := false } :=
  ⟨Or.inl (by decide),
   legacy_message_passthrough [1] (MessageDoc.mk "m1" none none "hello" "u")
     (Or.inl (by decide))⟩
